import Mathlib

/-!
Verification of the Azure platform adaptee of autoscale-core
(src/fortigate-autoscale/azure/azure-platform-adaptee.ts) against its
natural-language specification.

The embedding models JavaScript runtime values shallowly: records are
association lists of field name to value, the document store is a list of
records addressed by their id field, fallible operations return Except.
JSON serialization is modelled by its value semantics (stringify followed by
parse is the identity on JSON-safe values), so a serialized payload is
represented by the value it denotes.
-/

deriving instance DecidableEq for Except

/-- JavaScript primitive runtime values. NaN is not modelled separately;
where an operation would produce NaN the surrounding code is modelled on the
NaN-poisoned outcome directly (comparisons with NaN are false). -/
inductive JPrim where
  | null
  | undefined
  | bool (b : Bool)
  | num (n : Int)
  | str (s : String)
deriving DecidableEq, Repr

/-- JSON-like runtime values to the nesting depth this adaptee inspects:
primitives, arrays of primitives, flat objects, and arrays of flat objects
(the shape of a parsed VM list, whose elements are only read at their vmId
field). -/
inductive JVal where
  | prim (p : JPrim)
  | arr (elems : List JPrim)
  | obj (fields : List (String × JPrim))
  | objArr (elems : List (List (String × JPrim)))
deriving DecidableEq, Repr

/-- JavaScript truthiness of a primitive. -/
def JPrim.truthy : JPrim → Bool
  | .null => false
  | .undefined => false
  | .bool b => b
  | .num n => !(n == 0)
  | .str s => !(s == "")

/-- JavaScript truthiness: objects and arrays (even empty ones) are truthy. -/
def jvTruthy : JVal → Bool
  | .prim p => p.truthy
  | _ => true

/-- Numeric reading of a value as used in arithmetic contexts
(null coerces to 0, booleans to 0/1); undefined, strings and objects give
none, standing for the NaN / non-numeric outcomes. Rows written by this
layer always carry number-valued cacheTime and ttl fields. -/
def jvNum? : JVal → Option Int
  | .prim (.num n) => some n
  | .prim .null => some 0
  | .prim (.bool b) => some (if b then 1 else 0)
  | _ => none

/-- String reading of a value: some when the value is a string. -/
def jvStr? : JVal → Option String
  | .prim (.str s) => some s
  | _ => none

/-- The JavaScript String(p) coercion of a primitive. -/
def JPrim.toStr : JPrim → String
  | .str s => s
  | .num n => toString n
  | .null => "null"
  | .undefined => "undefined"
  | .bool b => if b then "true" else "false"

/-- The JavaScript String(v) coercion. -/
def jvToString : JVal → String
  | .prim p => p.toStr
  | .arr xs => String.intercalate "," (xs.map JPrim.toStr)
  | .obj _ => "[object Object]"
  | .objArr xs => String.intercalate "," (xs.map (fun _ => "[object Object]"))

/-- The test Number(v) === 0. For strings the zero-coercing spellings that
could reach this code are enumerated; the clause provably never changes the
result of computeSaveId (lemma computeSaveId_eq), so finer string-to-number
modelling is immaterial. Number([]) is 0 because an empty array coerces via
its empty string form. -/
def jvNumberIsZero : JVal → Bool
  | .prim .null => true
  | .prim .undefined => false
  | .prim (.bool b) => !b
  | .prim (.num n) => n == 0
  | .prim (.str s) => s == "" || s == "0" || s == "+0" || s == "-0" || s == "0.0"
  | .arr [] => true
  | _ => false

/-- JavaScript a || b on runtime values. -/
def jsOr (a b : JVal) : JVal := if jvTruthy a then a else b

/-- JavaScript a && b on runtime values. -/
def jsAnd (a b : JVal) : JVal := if jvTruthy a then b else a

/-- A stored record: field name to value, in property order. -/
abbrev JsRecord := List (String × JVal)

/-- Property read, r[k]: the first binding of k, undefined when absent. -/
def jsGet (r : JsRecord) (k : String) : JVal :=
  match r.find? (fun p => p.1 == k) with
  | some p => p.2
  | none => JVal.prim .undefined

/-- Property write, r[k] = v (binding order is irrelevant to every claim). -/
def jsSet (r : JsRecord) (k : String) (v : JVal) : JsRecord :=
  (k, v) :: r.filter (fun p => !(p.1 == k))

/-- The property names of a record, Object.keys(r). -/
def jsKeys (r : JsRecord) : List String := r.map (fun p => p.1)

/-- The Cosmos store-metadata field names stripped before every write. -/
def metaFieldNames : List String := ["_attachments", "_etag", "_rid", "_self", "_ts"]

/-- Deleting the store-metadata properties from an item. -/
def stripMeta (r : JsRecord) : JsRecord :=
  r.filter (fun p => !(metaFieldNames.contains p.1))

/-- Error codes shared by the db error taxonomy (db-definitions). -/
inductive DbErrorCode where
  | NotFound
  | KeyConflict
  | InconsistentData
  | UnexpectedResponse
deriving DecidableEq, Repr

/-- DbReadError / DbSaveError / DbDeleteError with their code. -/
inductive DbError where
  | read (code : DbErrorCode)
  | save (code : DbErrorCode)
  | delete (code : DbErrorCode)
deriving DecidableEq, Repr

/-- Everything a modelled operation can throw: a typed db error, a plain
TypeError raised by the runtime (property assignment or method call on
null/undefined), an untyped invalid-argument Error, or a validation error
raised by a table's validateInput. -/
inductive JsError where
  | db (e : DbError)
  | typeError (msg : String)
  | invalidArg (msg : String)
  | validation
deriving DecidableEq, Repr

/-- A table descriptor (the Table shape from db-definitions, whose source is
outside the shown files): name, primary key name, input validation, and the
raw-to-typed record conversion applied on every successful read. Validation
and conversion are carried as plain functions so that each claim is settled
for the concrete tables it concerns. -/
structure TableDef where
  name : String
  primaryKeyName : String
  validateOk : JsRecord → Bool
  convertRecord : JsRecord → JsRecord

/-- The document container: rows addressed by their id field. -/
abbrev GDb := List JsRecord

/-- Backend read-by-id: the row whose id field equals the given value. -/
def gdbFind (db : GDb) (idv : JVal) : Option JsRecord :=
  db.find? (fun r => jsGet r "id" == idv)

/-- Backend upsert: replace any row with the same id and insert the record.
Ids are unique in the store, so replacement removes every row with that id. -/
def gUpsert (db : GDb) (stored : JsRecord) : GDb :=
  stored :: db.filter (fun r => !(jsGet r "id" == jsGet stored "id"))

/-- getItemFromDb: read one item by primary key value. An OK response is
converted through the table; NOT_FOUND raises DbReadError NotFound. The
backend model does not produce other statuses, so the UnexpectedResponse
branch of the source is not reachable here. -/
def getItemFromDb (db : GDb) (table : TableDef) (primaryKeyValue : JVal) :
    Except JsError JsRecord :=
  match gdbFind db primaryKeyValue with
  | some resource => .ok (table.convertRecord resource)
  | none => .error (.db (.read .NotFound))

/-- SaveCondition from db-definitions. -/
inductive SaveCondition where
  | InsertOnly
  | UpdateOnly
  | Upsert
deriving DecidableEq, Repr

/-- The id written by saveItemToDb, transcribing the source expression
((item.id || Number(item.id) === 0) && item.id) || String(item[pk])
with JavaScript or/and value semantics. -/
def computeSaveId (idv pkv : JVal) : JVal :=
  jsOr (jsAnd (jsOr idv (.prim (.bool (jvNumberIsZero idv)))) idv)
    (.prim (.str (jvToString pkv)))

/-- saveItemToDb: validate the non-metadata input, read the current snapshot
by primary key with item.id as the key value (an uncaught DbReadError
propagates when no record exists), apply the save-condition and consistency
checks against the snapshot, strip metadata, set the id, and upsert. The
backend assigns the write timestamp as the _ts metadata field. The IfMatch
precondition is not modelled: no claim concerns concurrent writers. -/
def saveItemToDb (db : GDb) (writeTime : Int) (table : TableDef)
    (item : JsRecord) (condition : SaveCondition)
    (ensureDataConsistency : Bool) : Except JsError (JsRecord × GDb) :=
  if !(table.validateOk item) then .error .validation
  else
    match getItemFromDb db table (jsGet item "id") with
    | .error e => .error e
    | .ok snap =>
      -- itemSnapshot is necessarily present here: the NotFound read above
      -- was not caught, so the isNone arms below are the source's dead code.
      let itemSnapshot : Option JsRecord := some snap
      if condition == .UpdateOnly && itemSnapshot.isNone then
        .error (.db (.save .NotFound))
      else if condition == .InsertOnly && itemSnapshot.isSome then
        .error (.db (.save .KeyConflict))
      else if ensureDataConsistency && itemSnapshot.isSome &&
          !(jsGet item table.primaryKeyName == jsGet snap table.primaryKeyName) then
        .error (.db (.save .InconsistentData))
      else
        let withId := jsSet item "id"
          (computeSaveId (jsGet item "id") (jsGet item table.primaryKeyName))
        let saveItem := stripMeta withId
        let stored := jsSet saveItem "_ts" (.prim (.num writeTime))
        .ok (table.convertRecord stored, gUpsert db stored)

/-- The unconditional part of deleteItemFromDb, independent of the
consistency flag: primary key strictly-null check, id/primary-key equality
check, then backend delete by id (OK or NOT_FOUND). -/
def deleteItemPhase2 (db : GDb) (table : TableDef) (item : JsRecord) :
    Except JsError GDb :=
  if jsGet item table.primaryKeyName == JVal.prim .null then
    .error (.db (.delete .InconsistentData))
  else if !(jsGet item "id" == jsGet item table.primaryKeyName) then
    .error (.db (.delete .InconsistentData))
  else
    match gdbFind db (jsGet item "id") with
    | some _ => .ok (db.filter (fun r => !(jsGet r "id" == jsGet item "id")))
    | none => .error (.db (.delete .NotFound))

/-- deleteItemFromDb: when ensureDataConsistency, validate, re-read the
snapshot by the stringified primary key value (a DbReadError is re-thrown as
a delete-side NotFound), and fail InconsistentData when any key of the
snapshot carries a value different from the item's; then in every case run
the unconditional checks and the backend delete. -/
def deleteItemFromDb (db : GDb) (table : TableDef) (item : JsRecord)
    (ensureDataConsistency : Bool) : Except JsError GDb :=
  if ensureDataConsistency then
    if !(table.validateOk item) then .error .validation
    else
      match getItemFromDb db table
          (.prim (.str (jvToString (jsGet item table.primaryKeyName)))) with
      | .error (.db (.read _)) => .error (.db (.delete .NotFound))
      | .error e => .error e
      | .ok itemSnapshot =>
        let keyDiff := (jsKeys itemSnapshot).filter
          (fun k => !(jsGet itemSnapshot k == jsGet item k))
        if !(keyDiff == []) then .error (.db (.delete .InconsistentData))
        else deleteItemPhase2 db table item
  else deleteItemPhase2 db table item

/-- generateCacheId: the api name and the stringified parameters joined
with the hyphen character. -/
def generateCacheId (api : String) (parameters : List String) : String :=
  String.intercalate "-" (api :: parameters)

/-- An api cache request: api name, parameters, optional time-to-live in
seconds. -/
structure ApiCacheRequest where
  api : String
  parameters : List String
  ttl : Option Int
deriving DecidableEq, Repr

/-- An api cache result. Optional fields are absent (undefined) when none.
stringifiedData carries the serialized payload, represented by the JSON
value it denotes. ttl and cacheTime are none when the corresponding field
is undefined or non-numeric. -/
structure ApiCacheResult where
  id : Option String
  api : Option String
  parameters : Option (List String)
  stringifiedData : JVal
  ttl : Option Int
  cacheTime : Option Int
deriving DecidableEq, Repr

/-- Modelled from the spec: the AzureApiRequestCache table descriptor is
declared in azure-db-definitions.ts, which is not among the shown sources.
Per sections 3 and 4.3 of the spec, its rows are cache entries keyed by the
cache id (the primary key is the id itself), validation accepts the rows
this layer writes, and the cache time of an entry is the write timestamp
assigned by the backend (the _ts metadata field, exposed as cacheTime by
the conversion). -/
def azureApiRequestCacheTable : TableDef where
  name := "ApiRequestCache"
  primaryKeyName := "id"
  validateOk := fun _ => true
  convertRecord := fun r => jsSet r "cacheTime" (jsGet r "_ts")

/-- The effective time-to-live used by apiRequestReadCache:
req.ttl || item.ttl with JavaScript or semantics (an absent or zero request
ttl falls back to the stored field). -/
def effectiveTimeToLive (req : ApiCacheRequest) (item : JsRecord) : JVal :=
  match req.ttl with
  | some t => if !(t == 0) then .prim (.num t) else jsGet item "ttl"
  | none => jsGet item "ttl"

/-- apiRequestReadCache: look the entry up by generated cache id (the
uncaught DbReadError of getItemFromDb propagates when the row is absent),
then return the entry when cacheTime + timeToLive * 1000 > now and null
otherwise. A NaN-poisoned comparison (non-numeric cacheTime or ttl) is
false. -/
def apiRequestReadCache (db : GDb) (now : Int) (req : ApiCacheRequest) :
    Except JsError (Option ApiCacheResult) :=
  match getItemFromDb db azureApiRequestCacheTable
      (.prim (.str (generateCacheId req.api req.parameters))) with
  | .error e => .error e
  | .ok item =>
    let valid : Bool :=
      match jvNum? (jsGet item "cacheTime"), jvNum? (effectiveTimeToLive req item) with
      | some ct, some tl => decide (ct + tl * 1000 > now)
      | _, _ => false
    if valid then
      .ok (some
        { id := jvStr? (jsGet item "id")
          api := none
          parameters := none
          stringifiedData := jsGet item "res"
          ttl := jvNum? (jsGet item "ttl")
          cacheTime := jvNum? (jsGet item "cacheTime") })
    else .ok none

/-- apiRequestDeleteCache: build the downcast row with the generated id and
null payload fields and delete it without the consistency check. -/
def apiRequestDeleteCache (db : GDb) (req : ApiCacheRequest) :
    Except JsError GDb :=
  let item : JsRecord :=
    [("id", .prim (.str (generateCacheId req.api req.parameters))),
     ("res", .prim .null), ("cacheTime", .prim .null), ("ttl", .prim .null)]
  deleteItemFromDb db azureApiRequestCacheTable item false

/-- apiRequestSaveCache: require an id or an api/parameters pair, build the
row with the stored ttl field set to res.ttl * 1000 and cacheTime left
undefined (the backend-assigned _ts supplies it), save with Upsert and no
consistency check, and report the resulting cache time. An undefined res.ttl
would make the stored ttl NaN, modelled as undefined. -/
def apiRequestSaveCache (db : GDb) (writeTime : Int) (res : ApiCacheResult) :
    Except JsError (ApiCacheResult × GDb) :=
  let idTruthy : Bool := match res.id with | some s => !(s == "") | none => false
  let apiTruthy : Bool := match res.api with | some s => !(s == "") | none => false
  let paramsTruthy : Bool := res.parameters.isSome
  if !(idTruthy || (!idTruthy && apiTruthy && paramsTruthy)) then
    .error (.invalidArg "Invalid cache result to save. id, api, and paramters are required.")
  else
    let cid : String :=
      if idTruthy then res.id.getD ""
      else generateCacheId (res.api.getD "") (res.parameters.getD [])
    let item : JsRecord :=
      [("id", .prim (.str cid)),
       ("res", res.stringifiedData),
       ("cacheTime", .prim .undefined),
       ("ttl", match res.ttl with
               | some t => .prim (.num (t * 1000))
               | none => .prim .undefined)]
    match saveItemToDb db writeTime azureApiRequestCacheTable item .Upsert false with
    | .error e => .error e
    | .ok (savedItem, db2) =>
      .ok ({ res with cacheTime := jvNum? (jsGet savedItem "cacheTime") }, db2)

/-- ApiCacheOption from the source. -/
inductive ApiCacheOption where
  | ReadApiFirst
  | ReadApiOnly
  | ReadCacheAndDelete
  | ReadCacheFirst
  | ReadCacheOnly
deriving DecidableEq, Repr

/-- The envelope returned by requestWithCaching: result, cache time (none
when the local variable was never assigned or assigned null/undefined), the
fixed 600 second ttl, and the hit flag. -/
structure ApiCache where
  result : JVal
  cacheTime : Option Int
  ttl : Int
  hitCache : Bool
deriving DecidableEq, Repr

/-- requestWithCaching: the cache policy engine. The returned Bool records
whether the origin dataProcessor was invoked. producerData is the value the
dataProcessor would resolve to. In the ReadCacheFirst miss branch the source
assigns res.api while res is necessarily null, so a truthy origin result
raises a TypeError there before apiRequestSaveCache can run; the save call
and the cacheTime reassignment that follow it are unreachable. -/
def requestWithCaching (db : GDb) (now : Int) (req : ApiCacheRequest)
    (cacheOption : ApiCacheOption) (producerData : JVal) :
    Except JsError (ApiCache × GDb × Bool) :=
  let ttl : Int := 600
  match (if cacheOption == .ReadApiOnly then Except.ok none
         else apiRequestReadCache db now req) with
  | .error e => .error e
  | .ok res =>
    let cacheTime : Option Int := res.bind (fun r => r.cacheTime)
    let data : JVal :=
      match res with
      | some r => if jvTruthy r.stringifiedData then r.stringifiedData else .arr []
      | none => .arr []
    let hitCache : Bool := res.isSome
    if cacheOption == .ReadCacheOnly || cacheOption == .ReadCacheAndDelete then
      if cacheOption == .ReadCacheAndDelete && res.isSome then
        match apiRequestDeleteCache db req with
        | .error e => .error e
        | .ok db2 =>
          .ok ({ result := .prim .null, cacheTime := some 0, ttl := ttl,
                 hitCache := hitCache }, db2, false)
      else
        .ok ({ result := data, cacheTime := cacheTime, ttl := ttl,
               hitCache := hitCache }, db, false)
    else
      if (cacheOption == .ReadCacheFirst && res.isNone) ||
          cacheOption == .ReadApiOnly then
        let data2 := producerData
        if jvTruthy data2 && cacheOption == .ReadCacheFirst then
          .error (.typeError "Cannot set properties of null")
        else
          .ok ({ result := data2, cacheTime := cacheTime, ttl := ttl,
                 hitCache := hitCache }, db, true)
      else
        .ok ({ result := data, cacheTime := cacheTime, ttl := ttl,
               hitCache := hitCache }, db, false)

/-- The distinct origin api calls the facades can issue. -/
inductive OriginCall where
  | getInstance (scalingGroupName vmIdOrInstanceId : String)
  | listVMs (scalingGroupName : String)
deriving DecidableEq, Repr

/-- listInstances facade: fixed api name, the scaling group as parameter,
600 second ttl; delegates to the policy engine and reports which origin
calls were issued. -/
def listInstances (db : GDb) (now : Int) (scalingGroupName : String)
    (cacheOption : ApiCacheOption) (originData : JVal) :
    Except JsError (ApiCache × GDb × List OriginCall) :=
  match requestWithCaching db now
      { api := "listInstances", parameters := [scalingGroupName], ttl := some 600 }
      cacheOption originData with
  | .error e => .error e
  | .ok (env, db2, called) =>
    .ok (env, db2, if called then [.listVMs scalingGroupName] else [])

/-- Decimal digits test. -/
def allDigits (cs : List Char) : Bool := !cs.isEmpty && cs.all (fun c => c.isDigit)

/-- isFinite(Number(id)) for the identifier strings this adaptee receives:
the empty string coerces to 0 (finite); an optional sign followed by a
decimal numeral (digits, digits., digits.digits or .digits) is finite;
everything else, vmId GUIDs in particular, gives NaN. Leading or trailing
whitespace and exotic numeral forms do not occur in these identifiers and
are not modelled. -/
def jsIsFiniteNumber (s : String) : Bool :=
  let body := fun (cs : List Char) =>
    match cs.splitOn '.' with
    | [a] => allDigits a
    | [a, b] => (allDigits a && (b.isEmpty || allDigits b)) || (a.isEmpty && allDigits b)
    | _ => false
  match s.data with
  | [] => true
  | c :: rest => if c == '+' || c == '-' then body rest else body (c :: rest)

/-- The predicate of the local vmId filter:
v.vmId && v.vmId === id on one element of the parsed list. -/
def vmIdMatches (fields : List (String × JPrim)) (vid : String) : Bool :=
  let v : JVal := jsGet (fields.map (fun p => (p.1, JVal.prim p.2))) "vmId"
  jvTruthy v && v == .prim (.str vid)

/-- listResult.result.find(v => v.vmId && v.vmId === id): undefined when no
element matches; an array of primitives has no element with a truthy vmId;
calling find on null or undefined raises a TypeError, and on other
non-array values the method does not exist. -/
def findVmByVmId (v : JVal) (vid : String) : Except JsError JVal :=
  match v with
  | .objArr xs =>
    .ok (match xs.find? (fun o => vmIdMatches o vid) with
         | some o => .obj o
         | none => .prim .undefined)
  | .arr _ => .ok (.prim .undefined)
  | .prim .null => .error (.typeError "Cannot read properties of null")
  | .prim .undefined => .error (.typeError "Cannot read properties of undefined")
  | _ => .error (.typeError "find is not a function")

/-- describeInstance facade: a numeric id issues the direct single-instance
request through the policy engine; a non-numeric id delegates to
listInstances with the same cache option and filters the returned list
locally by vmId, issuing no further origin call. -/
def describeInstance (db : GDb) (now : Int) (scalingGroupName vid : String)
    (cacheOption : ApiCacheOption) (getData listData : JVal) :
    Except JsError (ApiCache × GDb × List OriginCall) :=
  if jsIsFiniteNumber vid then
    match requestWithCaching db now
        { api := "describeInstance", parameters := [scalingGroupName, vid],
          ttl := some 600 } cacheOption getData with
    | .error e => .error e
    | .ok (env, db2, called) =>
      .ok (env, db2, if called then [.getInstance scalingGroupName vid] else [])
  else
    match listInstances db now scalingGroupName cacheOption listData with
    | .error e => .error e
    | .ok (env, db2, calls) =>
      match findVmByVmId env.result vid with
      | .error e => .error e
      | .ok found =>
        .ok ({ result := found, cacheTime := env.cacheTime, ttl := env.ttl,
               hitCache := env.hitCache }, db2, calls)

/-! ## Concrete fixtures used by the closed theorems and witnesses -/

/-- The request listInstances("vmss-A") builds. -/
def reqLI : ApiCacheRequest :=
  { api := "listInstances", parameters := ["vmss-A"], ttl := some 600 }

/-- An origin VM list, as parsedBody would deliver it. -/
def originVMs : JVal := .objArr [[("vmId", .str "vm-guid-xyz")]]

/-- A previously cached VM list, distinct from the origin one. -/
def cachedVMs : JVal := .objArr [[("vmId", .str "cached-vm")]]

/-- A cache row for reqLI written at time 100 (stored ttl field is in
milliseconds, as apiRequestSaveCache writes it). -/
def validRow : JsRecord :=
  [("id", .prim (.str "listInstances-vmss-A")), ("res", cachedVMs),
   ("ttl", .prim (.num 600000)), ("_ts", .prim (.num 100))]

/-- The same cache row written at time 0, expired at now = 1000000. -/
def expiredRow : JsRecord :=
  [("id", .prim (.str "listInstances-vmss-A")), ("res", cachedVMs),
   ("ttl", .prim (.num 600000)), ("_ts", .prim (.num 0))]

/-- A settings-like table whose validation accepts everything and whose
conversion is the identity. -/
def settingsTable : TableDef where
  name := "Settings"
  primaryKeyName := "settingKey"
  validateOk := fun _ => true
  convertRecord := fun r => r

/-- A well-formed settings item whose id is absent from the store. -/
def settingsItem : JsRecord :=
  [("id", .prim (.str "k1")), ("settingKey", .prim (.str "k1")),
   ("settingValue", .prim (.str "v"))]

/-! ## Fixtures for the delete and save-id claims -/

/-- A table keyed by vmid, identity conversion, permissive validation. -/
def vmTable : TableDef where
  name := "Vm"
  primaryKeyName := "vmid"
  validateOk := fun _ => true
  convertRecord := fun r => r

/-- A stored row whose id and vmid agree. -/
def snapRow : JsRecord :=
  [("id", .prim (.str "a")), ("vmid", .prim (.str "a"))]

/-- The same row with one extra field the store does not have. -/
def itemWithExtra : JsRecord :=
  [("id", .prim (.str "a")), ("vmid", .prim (.str "a")), ("extra", .prim (.num 1))]

/-- A table keyed by the field named k, identity conversion. -/
def pkTable : TableDef where
  name := "T"
  primaryKeyName := "k"
  validateOk := fun _ => true
  convertRecord := fun r => r

/-- An item whose id is the number zero while its primary key value is the
string k. -/
def zeroIdItem : JsRecord :=
  [("id", .prim (.num 0)), ("k", .prim (.str "k"))]

/-- An item whose (truthy) id b differs from its primary key value a. -/
def mismatchedIdItem : JsRecord :=
  [("id", .prim (.str "b")), ("k", .prim (.str "a"))]

/-- The row stored by a successful save of mismatchedIdItem at write time 0. -/
def storedMismatch : JsRecord :=
  [("_ts", .prim (.num 0)), ("id", .prim (.str "b")), ("k", .prim (.str "a"))]

/-- The row apiRequestSaveCache stores for api a, parameters ps, payload d,
result ttl t, at backend write time writeTime: the ttl field is t * 1000 and
the backend supplies _ts. -/
def cacheStored (a : String) (ps : List String) (d : JVal) (writeTime t : Int) :
    JsRecord :=
  [("_ts", .prim (.num writeTime)),
   ("id", .prim (.str (generateCacheId a ps))),
   ("res", d),
   ("cacheTime", .prim .undefined),
   ("ttl", .prim (.num (t * 1000)))]

/-- The store after the witness save: one refreshed cache row. -/
def witnessDb2 : GDb :=
  [[("_ts", .prim (.num 5)), ("id", .prim (.str "a-p")), ("res", .prim (.str "D")),
    ("cacheTime", .prim .undefined), ("ttl", .prim (.num 7000))]]

/-! ## Helper lemmas -/

theorem jsGet_jsSet_self (r : JsRecord) (k : String) (v : JVal) :
    jsGet (jsSet r k v) k = v := by
  simp [jsGet, jsSet]

theorem jsGet_jsSet_ne (r : JsRecord) (k k2 : String) (v : JVal) (h : ¬ (k2 = k)) :
    jsGet (jsSet r k v) k2 = jsGet r k2 := by
  unfold jsGet jsSet
  rw [List.find?_cons_of_neg _ (by simp; exact fun he => h he.symm)]
  induction r with
  | nil => rfl
  | cons a r ih =>
    by_cases hk : a.1 = k
    · rw [List.filter_cons_of_neg (by simp [hk]),
        List.find?_cons_of_neg _ (by simp [hk]; exact fun he => h he.symm), ih]
    · rw [List.filter_cons_of_pos (by simp [hk])]
      by_cases hk2 : a.1 = k2
      · rw [List.find?_cons_of_pos _ (by simp [hk2]),
          List.find?_cons_of_pos _ (by simp [hk2])]
      · rw [List.find?_cons_of_neg _ (by simp [hk2]),
          List.find?_cons_of_neg _ (by simp [hk2]), ih]

theorem jsGet_stripMeta (r : JsRecord) (k : String)
    (h : metaFieldNames.contains k = false) :
    jsGet (stripMeta r) k = jsGet r k := by
  unfold jsGet stripMeta
  induction r with
  | nil => rfl
  | cons a r ih =>
    by_cases hm : metaFieldNames.contains a.1 = true
    · have hak : ¬ (a.1 = k) := by
        intro he
        rw [he] at hm
        rw [hm] at h
        exact Bool.true_eq_false.mp h
      rw [List.filter_cons_of_neg (by simp; exact List.mem_of_elem_eq_true hm),
        List.find?_cons_of_neg _ (by simp [hak]), ih]
    · rw [List.filter_cons_of_pos
        (by simp; exact fun hmem => hm (List.elem_eq_true_of_mem hmem))]
      by_cases hk2 : a.1 = k
      · rw [List.find?_cons_of_pos _ (by simp [hk2]),
          List.find?_cons_of_pos _ (by simp [hk2])]
      · rw [List.find?_cons_of_neg _ (by simp [hk2]),
          List.find?_cons_of_neg _ (by simp [hk2]), ih]

theorem gdbFind_removed (db : GDb) (key : JVal) :
    gdbFind (db.filter (fun r => !(jsGet r "id" == key))) key = none := by
  unfold gdbFind
  rw [List.find?_eq_none]
  intro r hr
  have := (List.mem_filter.mp hr).2
  simp_all

theorem computeSaveId_eq (idv pkv : JVal) :
    computeSaveId idv pkv
      = if jvTruthy idv then idv else .prim (.str (jvToString pkv)) := by
  unfold computeSaveId jsOr jsAnd
  have ht : jvTruthy (JVal.prim (.bool true)) = true := rfl
  have hf : jvTruthy (JVal.prim (.bool false)) = false := rfl
  by_cases h : jvTruthy idv = true
  · simp [h]
  · rw [Bool.not_eq_true] at h
    by_cases hz : jvNumberIsZero idv = true
    · rw [hz]
      simp [h, ht]
    · rw [Bool.not_eq_true] at hz
      rw [hz]
      simp [h, hf]

theorem computeSaveId_str_self (s : String) :
    computeSaveId (.prim (.str s)) (.prim (.str s)) = .prim (.str s) := by
  rw [computeSaveId_eq]
  by_cases h : s = "" <;> simp [jvTruthy, JPrim.truthy, jvToString, JPrim.toStr, h]

theorem stringData_injective : Function.Injective String.data := by
  intro a b h
  cases a
  cases b
  exact congrArg String.mk h

theorem intercalate_go_data (s : String) (as : List String) (acc : String) :
    (String.intercalate.go acc s as).data
      = acc.data ++ (as.map (fun a => s.data ++ a.data)).flatten := by
  induction as generalizing acc with
  | nil => simp [String.intercalate.go]
  | cons a as ih =>
    rw [String.intercalate.go, ih]
    simp [List.append_assoc]

theorem list_intercalate_cons (sep x : List Char) (xs : List (List Char)) :
    List.intercalate sep (x :: xs) = x ++ (xs.map (fun a => sep ++ a)).flatten := by
  induction xs generalizing x with
  | nil => simp [List.intercalate]
  | cons y ys ih =>
    have hy := ih y
    simp only [List.intercalate] at hy ⊢
    rw [List.intersperse_cons_cons]
    simp only [List.flatten_cons] at hy ⊢
    rw [hy]
    simp [List.append_assoc]

theorem string_intercalate_data (s a : String) (as : List String) :
    (String.intercalate s (a :: as)).data
      = List.intercalate s.data ((a :: as).map String.data) := by
  rw [show String.intercalate s (a :: as) = String.intercalate.go a s as from rfl,
    intercalate_go_data, List.map_cons, list_intercalate_cons, List.map_map]
  rfl

/-! ## Claim theorems -/

/-- Claim C1 (code bug): under ReadCacheFirst with no valid cache entry the
engine is supposed to call the origin, persist non-null data and return a
miss envelope carrying the write-time cache time. Instead, an absent cache
row makes the uncaught DbReadError of the initial cache read abort the call,
and an expired (present but invalid) row reaches the miss branch where the
source assigns res.api on the null res, raising a TypeError before any save;
no envelope is ever produced. Evaluated end to end through
listInstances("vmss-A", ReadCacheFirst) with a truthy origin VM list. -/
theorem listInstances_readCacheFirst_miss_aborts :
    listInstances [] 1000000 "vmss-A" .ReadCacheFirst originVMs
      = .error (.db (.read .NotFound))
    ∧ listInstances [expiredRow] 1000000 "vmss-A" .ReadCacheFirst originVMs
      = .error (.typeError "Cannot set properties of null") := by
  constructor
  · decide
  · decide

/-- Claim C2 (code bug): saveItemToDb is supposed to tolerate an absent
record at the snapshot-read stage, so that Upsert and InsertOnly succeed on
a missing id and only UpdateOnly fails NotFound. In the code the snapshot
read getItemFromDb throws DbReadError NotFound on absence and saveItemToDb
does not catch it, so every condition fails with the read-side NotFound on a
missing id (the UpdateOnly and InsertOnly arms that inspect an absent
snapshot are dead code). Evaluated at a well-formed settings item over an
empty table. -/
theorem saveItemToDb_missing_id_always_read_error :
    saveItemToDb [] 0 settingsTable settingsItem .InsertOnly true
      = .error (.db (.read .NotFound))
    ∧ saveItemToDb [] 0 settingsTable settingsItem .Upsert true
      = .error (.db (.read .NotFound))
    ∧ saveItemToDb [] 0 settingsTable settingsItem .UpdateOnly true
      = .error (.db (.read .NotFound)) := by
  refine ⟨by decide, by decide, by decide⟩

/-- Claim C3 (code bug): ReadApiFirst is supposed to call the origin
producer on every invocation, return its result and never persist. In the
code no branch of requestWithCaching invokes the dataProcessor for
ReadApiFirst: on a valid cache entry the cached payload is returned with
hitCache true, and on an expired entry the empty-array default is returned;
the origin-called flag is false and the store is unchanged in both runs, and
the returned payload differs from the origin data. -/
theorem requestWithCaching_readApiFirst_never_calls_origin :
    requestWithCaching [validRow] 1000 reqLI .ReadApiFirst originVMs
      = .ok ({ result := cachedVMs, cacheTime := some 100, ttl := 600,
               hitCache := true }, [validRow], false)
    ∧ requestWithCaching [expiredRow] 1000000 reqLI .ReadApiFirst originVMs
      = .ok ({ result := .arr [], cacheTime := none, ttl := 600,
               hitCache := false }, [expiredRow], false)
    ∧ cachedVMs ≠ originVMs := by
  refine ⟨by decide, by decide, by decide⟩

/-- Claim C4, counterexample: on a valid cache entry, ReadCacheAndDelete is
claimed to return the entry's pre-delete payload; the code sets the result
to null after the delete. At this input the entry's payload is the cached VM
list, yet the returned result is null. -/
theorem readCacheAndDelete_result_is_null :
    requestWithCaching [validRow] 1000 reqLI .ReadCacheAndDelete originVMs
      = .ok ({ result := .prim .null, cacheTime := some 0, ttl := 600,
               hitCache := true }, [], false)
    ∧ jsGet validRow "res" = cachedVMs
    ∧ cachedVMs ≠ JVal.prim .null := by
  refine ⟨by decide, by decide, by decide⟩

/-- Claim C6, counterexample: the full-row check is claimed to require every
field of the given item to equal the snapshot's, failing InconsistentData on
any single differing field. The comparison iterates the snapshot's keys
only, so an item differing from the stored row in an extra field passes the
check and the delete succeeds instead of failing InconsistentData. -/
theorem deleteItemFromDb_extra_field_not_compared :
    jsGet itemWithExtra "extra" ≠ jsGet snapRow "extra"
    ∧ deleteItemFromDb [snapRow] vmTable itemWithExtra true = .ok [] := by
  refine ⟨by decide, by decide⟩

/-- Claim C7, counterexample: the saved id is claimed to be the item's own
id whenever meaningfully present including numeric zero, making id equal the
primary key value after every successful save. For an item with id 0 the
saved id is the stringified primary key value k, not 0; and for an item with
truthy id b over primary key value a the saved id is b, which differs from
the primary key value. -/
theorem saveItemToDb_id_zero_and_mismatch :
    (saveItemToDb [zeroIdItem] 0 pkTable zeroIdItem .Upsert true).map
        (fun p => jsGet p.1 "id") = .ok (.prim (.str "k"))
    ∧ JVal.prim (.str "k") ≠ .prim (.num 0)
    ∧ (saveItemToDb [mismatchedIdItem] 0 pkTable mismatchedIdItem .Upsert true).map
        (fun p => jsGet p.1 "id") = .ok (.prim (.str "b"))
    ∧ JVal.prim (.str "b") ≠ jsGet mismatchedIdItem "k" := by
  refine ⟨by decide, by decide, by decide, by decide⟩

/-- Claim C8, counterexample: distinct parameter sequences, in particular
the same parameters in a different order, are claimed to yield distinct
cache ids. The sequences b-b,b and b,b-b are distinct permutations of each
other yet produce the same id under api a. -/
theorem generateCacheId_reorder_collision :
    generateCacheId "a" ["b-b", "b"] = generateCacheId "a" ["b", "b-b"]
    ∧ (["b-b", "b"] : List String) ≠ ["b", "b-b"]
    ∧ (["b-b", "b"] : List String).Perm ["b", "b-b"] := by
  refine ⟨by decide, by decide, by decide⟩

/-- Claim C5 (confirmed): for any stored cache entry found by the read path
with numeric cacheTime and effective time-to-live, the entry is returned as
a hit exactly when cacheTime + ttl * 1000 > now; the boundary instants
cacheTime = now - ttl*1000 - 1 and cacheTime = now - ttl*1000 + 1 are a miss
and a hit respectively, and an expired entry is never returned as a hit even
though it is still present in storage. -/
theorem apiRequestReadCache_hit_iff (db : GDb) (now ct tl : Int)
    (req : ApiCacheRequest) (item : JsRecord)
    (hfind : getItemFromDb db azureApiRequestCacheTable
        (.prim (.str (generateCacheId req.api req.parameters))) = .ok item)
    (hct : jsGet item "cacheTime" = .prim (.num ct))
    (htl : effectiveTimeToLive req item = .prim (.num tl)) :
    ((∃ r, apiRequestReadCache db now req = .ok (some r)) ↔ ct + tl * 1000 > now)
    ∧ (ct = now - tl * 1000 - 1 → apiRequestReadCache db now req = .ok none)
    ∧ (ct = now - tl * 1000 + 1 → ∃ r, apiRequestReadCache db now req = .ok (some r)) := by
  have hred : apiRequestReadCache db now req
      = if ct + tl * 1000 > now then
          .ok (some
            { id := jvStr? (jsGet item "id")
              api := none
              parameters := none
              stringifiedData := jsGet item "res"
              ttl := jvNum? (jsGet item "ttl")
              cacheTime := jvNum? (jsGet item "cacheTime") })
        else .ok none := by
    unfold apiRequestReadCache
    rw [hfind]
    simp only [hct, htl, jvNum?]
    by_cases hgt : ct + tl * 1000 > now
    · simp [hgt]
    · simp [hgt]
  refine ⟨?_, ?_, ?_⟩
  · constructor
    · intro hex
      by_contra hnot
      rw [hred, if_neg hnot] at hex
      obtain ⟨r, hr⟩ := hex
      exact Option.noConfusion (Except.ok.inj hr)
    · intro hgt
      rw [hred, if_pos hgt]
      exact ⟨_, rfl⟩
  · intro hb
    rw [hred, if_neg (by omega)]
  · intro hb
    rw [hred, if_pos (by omega)]
    exact ⟨_, rfl⟩

/-- Witness for apiRequestReadCache_hit_iff at the concrete valid cache row:
the hypotheses hold and the characterization applies with cacheTime 100,
ttl 600, now 1000. -/
theorem apiRequestReadCache_hit_iff_witness :
    ((∃ r, apiRequestReadCache [validRow] 1000 reqLI = .ok (some r))
        ↔ (100 : Int) + 600 * 1000 > 1000)
    ∧ ((100 : Int) = 1000 - 600 * 1000 - 1 →
        apiRequestReadCache [validRow] 1000 reqLI = .ok none)
    ∧ ((100 : Int) = 1000 - 600 * 1000 + 1 →
        ∃ r, apiRequestReadCache [validRow] 1000 reqLI = .ok (some r)) :=
  apiRequestReadCache_hit_iff [validRow] 1000 100 600 reqLI
    (azureApiRequestCacheTable.convertRecord validRow)
    (by decide) (by decide) (by decide)

/-- Claim C4, amended: under ReadCacheAndDelete with a valid cache entry the
engine deletes the entry and returns a null result (not the pre-delete
payload) with cacheTime reset to 0 and hitCache true, and it never calls the
origin producer; afterwards the entry is gone from the store. -/
theorem readCacheAndDelete_amended (db : GDb) (now : Int) (req : ApiCacheRequest)
    (r : ApiCacheResult) (producerData : JVal)
    (hread : apiRequestReadCache db now req = .ok (some r)) :
    requestWithCaching db now req .ReadCacheAndDelete producerData
      = .ok ({ result := .prim .null, cacheTime := some 0, ttl := 600,
               hitCache := true },
             db.filter (fun row => !(jsGet row "id"
               == JVal.prim (.str (generateCacheId req.api req.parameters)))), false)
    ∧ getItemFromDb
        (db.filter (fun row => !(jsGet row "id"
          == JVal.prim (.str (generateCacheId req.api req.parameters)))))
        azureApiRequestCacheTable
        (.prim (.str (generateCacheId req.api req.parameters)))
      = .error (.db (.read .NotFound)) := by
  have hfound : ∃ raw, gdbFind db
      (JVal.prim (.str (generateCacheId req.api req.parameters))) = some raw := by
    unfold apiRequestReadCache getItemFromDb at hread
    cases hfd : gdbFind db
        (JVal.prim (.str (generateCacheId req.api req.parameters))) with
    | none =>
      rw [hfd] at hread
      simp at hread
    | some raw => exact ⟨raw, rfl⟩
  obtain ⟨raw, hraw⟩ := hfound
  have hdel : apiRequestDeleteCache db req
      = .ok (db.filter (fun row => !(jsGet row "id"
          == JVal.prim (.str (generateCacheId req.api req.parameters))))) := by
    unfold apiRequestDeleteCache deleteItemFromDb deleteItemPhase2
    simp only [Bool.false_eq_true, if_false, jsGet, List.find?_cons_of_pos,
      azureApiRequestCacheTable]
    simp only [jsGet] at hraw
    simp [hraw]
  constructor
  · unfold requestWithCaching
    rw [show (if (ApiCacheOption.ReadCacheAndDelete == ApiCacheOption.ReadApiOnly) = true
          then Except.ok none else apiRequestReadCache db now req)
        = apiRequestReadCache db now req from if_neg (by decide)]
    rw [hread]
    simp only [Option.isSome_some, Bool.and_true, Bool.and_self]
    rw [if_pos (show (ApiCacheOption.ReadCacheAndDelete == ApiCacheOption.ReadCacheOnly
        || ApiCacheOption.ReadCacheAndDelete == ApiCacheOption.ReadCacheAndDelete)
          = true from rfl)]
    rw [if_pos (show (ApiCacheOption.ReadCacheAndDelete
        == ApiCacheOption.ReadCacheAndDelete) = true from rfl)]
    rw [hdel]
  · unfold getItemFromDb
    rw [gdbFind_removed]

/-- Witness for readCacheAndDelete_amended at the concrete valid cache row. -/
theorem readCacheAndDelete_amended_witness :
    requestWithCaching [validRow] 1000 reqLI .ReadCacheAndDelete originVMs
      = .ok ({ result := .prim .null, cacheTime := some 0, ttl := 600,
               hitCache := true },
             [validRow].filter (fun row => !(jsGet row "id"
               == JVal.prim (.str (generateCacheId reqLI.api reqLI.parameters)))), false)
    ∧ getItemFromDb
        ([validRow].filter (fun row => !(jsGet row "id"
          == JVal.prim (.str (generateCacheId reqLI.api reqLI.parameters)))))
        azureApiRequestCacheTable
        (.prim (.str (generateCacheId reqLI.api reqLI.parameters)))
      = .error (.db (.read .NotFound)) :=
  readCacheAndDelete_amended [validRow] 1000 reqLI
    { id := some "listInstances-vmss-A", api := none, parameters := none,
      stringifiedData := cachedVMs, ttl := some 600000, cacheTime := some 100 }
    originVMs (by decide)

/-- Claim C6, amended: deleteItemFromDb with ensureConsistency re-reads the
stored snapshot (surfacing a read-side NotFound as a delete-side NotFound,
which the hfind hypothesis presupposes succeeded) and requires every field
of the snapshot to equal the item's corresponding field — fields present
only on the caller's item are not compared — failing InconsistentData if any
snapshot field differs; when the item equals the snapshot exactly (and the
id and primary-key coherence checks pass, the primary key being a string
value) the delete succeeds and a subsequent get of the same key fails
NotFound. -/
theorem deleteItemFromDb_consistency (db : GDb) (t : TableDef)
    (item snap : JsRecord) (s : String)
    (hval : t.validateOk item = true)
    (hpk : jsGet item t.primaryKeyName = .prim (.str s))
    (hfind : getItemFromDb db t
        (.prim (.str (jvToString (jsGet item t.primaryKeyName)))) = .ok snap) :
    ((∃ k, k ∈ jsKeys snap ∧ jsGet snap k ≠ jsGet item k) →
       deleteItemFromDb db t item true = .error (.db (.delete .InconsistentData)))
    ∧ (snap = item → jsGet item "id" = jsGet item t.primaryKeyName →
       deleteItemFromDb db t item true
         = .ok (db.filter (fun row => !(jsGet row "id" == jsGet item "id")))
       ∧ getItemFromDb (db.filter (fun row => !(jsGet row "id" == jsGet item "id")))
           t (jsGet item "id") = .error (.db (.read .NotFound))) := by
  have hkey : JVal.prim (.str (jvToString (jsGet item t.primaryKeyName)))
      = jsGet item t.primaryKeyName := by
    rw [hpk]
    rfl
  constructor
  · rintro ⟨k, hk, hne⟩
    unfold deleteItemFromDb
    rw [if_pos rfl, if_neg (by rw [hval]; decide)]
    rw [hfind]
    dsimp only
    have hmem : k ∈ (jsKeys snap).filter (fun k2 => !(jsGet snap k2 == jsGet item k2)) :=
      List.mem_filter.mpr ⟨hk, by simp [hne]⟩
    rw [if_pos ?hc]
    case hc =>
      have hnil : (jsKeys snap).filter (fun k2 => !(jsGet snap k2 == jsGet item k2)) ≠ [] :=
        List.ne_nil_of_mem hmem
      simp [hnil]
  · intro hsnap hid
    have hnil : (jsKeys snap).filter (fun k2 => !(jsGet snap k2 == jsGet item k2)) = [] := by
      rw [hsnap]
      apply List.filter_eq_nil_iff.mpr
      intro k hk
      simp
    have hraw : ∃ raw, gdbFind db (jsGet item t.primaryKeyName) = some raw := by
      unfold getItemFromDb at hfind
      rw [hkey] at hfind
      cases hfd : gdbFind db (jsGet item t.primaryKeyName) with
      | none =>
        rw [hfd] at hfind
        simp at hfind
      | some raw => exact ⟨raw, rfl⟩
    obtain ⟨raw, hraw⟩ := hraw
    have hdel : deleteItemFromDb db t item true
        = .ok (db.filter (fun row => !(jsGet row "id" == jsGet item "id"))) := by
      unfold deleteItemFromDb
      rw [if_pos rfl, if_neg (by rw [hval]; decide)]
      rw [hfind]
      dsimp only
      rw [if_neg (by simp [hnil])]
      unfold deleteItemPhase2
      rw [if_neg ?hn, if_neg ?hn2]
      case hn =>
        rw [hpk]
        simp
      case hn2 =>
        rw [hid]
        simp
      rw [hid]
      rw [hraw]
    refine ⟨hdel, ?_⟩
    unfold getItemFromDb
    rw [hid, gdbFind_removed]

/-- Witness for deleteItemFromDb_consistency at a concrete row: the item
equals the stored snapshot, the delete succeeds and the subsequent get
fails NotFound. -/
theorem deleteItemFromDb_consistency_witness :
    ((∃ k, k ∈ jsKeys snapRow ∧ jsGet snapRow k ≠ jsGet snapRow k) →
       deleteItemFromDb [snapRow] vmTable snapRow true
         = .error (.db (.delete .InconsistentData)))
    ∧ (snapRow = snapRow → jsGet snapRow "id" = jsGet snapRow vmTable.primaryKeyName →
       deleteItemFromDb [snapRow] vmTable snapRow true
         = .ok ([snapRow].filter (fun row => !(jsGet row "id" == jsGet snapRow "id")))
       ∧ getItemFromDb ([snapRow].filter (fun row => !(jsGet row "id" == jsGet snapRow "id")))
           vmTable (jsGet snapRow "id") = .error (.db (.read .NotFound))) :=
  deleteItemFromDb_consistency [snapRow] vmTable snapRow snapRow "a"
    (by decide) (by decide) (by decide)

/-- Claim C7, amended: after metadata stripping, every successful
saveItemToDb stores the item's own id exactly when that id is truthy; for
any falsy id — numeric zero and the empty string included, despite the
Number(id) === 0 clause in the source — the stored id is the stringified
primary-key value. Consequently the stored id equals the primary-key value
only when the item's id is falsy or already equal to it. Stated for tables
whose record conversion preserves the id field. -/
theorem saveItemToDb_id_rule (db db2 : GDb) (wt : Int) (t : TableDef)
    (item stored : JsRecord) (cond : SaveCondition) (ec : Bool)
    (hconv : ∀ r, jsGet (t.convertRecord r) "id" = jsGet r "id")
    (h : saveItemToDb db wt t item cond ec = .ok (stored, db2)) :
    jsGet stored "id"
      = (if jvTruthy (jsGet item "id") = true then jsGet item "id"
         else .prim (.str (jvToString (jsGet item t.primaryKeyName)))) := by
  unfold saveItemToDb at h
  split at h
  · exact absurd h (by simp)
  · split at h
    · exact absurd h (by simp)
    · dsimp only at h
      split at h
      · exact absurd h (by simp)
      · split at h
        · exact absurd h (by simp)
        · split at h
          · exact absurd h (by simp)
          · rw [Except.ok.injEq, Prod.mk.injEq] at h
            obtain ⟨h1, h2⟩ := h
            rw [← h1, hconv,
              jsGet_jsSet_ne _ _ _ _ (by decide),
              jsGet_stripMeta _ _ (by decide),
              jsGet_jsSet_self, computeSaveId_eq]

/-- Witness for saveItemToDb_id_rule at a concrete successful save whose
item id b is truthy. -/
theorem saveItemToDb_id_rule_witness :
    jsGet storedMismatch "id"
      = (if jvTruthy (jsGet mismatchedIdItem "id") = true then jsGet mismatchedIdItem "id"
         else .prim (.str (jvToString (jsGet mismatchedIdItem pkTable.primaryKeyName)))) :=
  saveItemToDb_id_rule [mismatchedIdItem] [storedMismatch] 0 pkTable
    mismatchedIdItem storedMismatch .Upsert true (fun _ => rfl) (by decide)

/-- Claim C8, amended: generateCacheId is pure and deterministic (equal
inputs give equal ids, the right-to-left direction), and it is injective on
inputs whose api name and parameters are free of the hyphen join character:
for such inputs, distinct api/parameter tuples — reordered parameter
sequences included — yield distinct ids. Parameters containing the hyphen
can collide (see the counterexample). -/
theorem generateCacheId_inj (a1 a2 : String) (p1 p2 : List String)
    (h1 : ¬ '-' ∈ a1.data) (h2 : ∀ p ∈ p1, ¬ '-' ∈ p.data)
    (h3 : ¬ '-' ∈ a2.data) (h4 : ∀ p ∈ p2, ¬ '-' ∈ p.data) :
    generateCacheId a1 p1 = generateCacheId a2 p2 ↔ (a1 = a2 ∧ p1 = p2) := by
  constructor
  · intro h
    have hd : (generateCacheId a1 p1).data = (generateCacheId a2 p2).data := by
      rw [h]
    unfold generateCacheId at hd
    rw [string_intercalate_data, string_intercalate_data] at hd
    have hsep : "-".data = ['-'] := rfl
    rw [hsep] at hd
    have hsplit := congrArg (fun l => l.splitOn '-') hd
    simp only at hsplit
    rw [List.splitOn_intercalate ((a1 :: p1).map String.data) '-' ?hx1 (by simp),
      List.splitOn_intercalate ((a2 :: p2).map String.data) '-' ?hx2 (by simp)] at hsplit
    case hx1 =>
      intro l hl
      rw [List.map_cons, List.mem_cons] at hl
      rcases hl with hl | hl
      · rw [hl]
        exact h1
      · obtain ⟨p, hp, hpe⟩ := List.mem_map.mp hl
        rw [← hpe]
        exact h2 p hp
    case hx2 =>
      intro l hl
      rw [List.map_cons, List.mem_cons] at hl
      rcases hl with hl | hl
      · rw [hl]
        exact h3
      · obtain ⟨p, hp, hpe⟩ := List.mem_map.mp hl
        rw [← hpe]
        exact h4 p hp
    have hlists : (a1 :: p1) = (a2 :: p2) :=
      List.map_injective_iff.mpr stringData_injective hsplit
    rw [List.cons.injEq] at hlists
    exact hlists
  · rintro ⟨rfl, rfl⟩
    rfl

/-- Witness for generateCacheId_inj at hyphen-free inputs: the api
listInstances with parameter lists x,y and y,x (a reordering) yields
distinct ids exactly because the tuples differ. -/
theorem generateCacheId_inj_witness :
    generateCacheId "listInstances" ["x", "y"]
        = generateCacheId "listInstances" ["y", "x"]
      ↔ ("listInstances" = "listInstances" ∧ (["x", "y"] : List String) = ["y", "x"]) :=
  generateCacheId_inj "listInstances" "listInstances" ["x", "y"] ["y", "x"]
    (by decide) (by decide) (by decide) (by decide)

/-- Claim C9 (confirmed): in any successful describeInstance call, a numeric
id issues at most the single direct single-instance origin call and a
non-numeric id issues at most the single list origin call, whose result is
filtered locally by vmId; no run issues two origin calls, in particular
never a second distinct one within the same cache window. -/
theorem describeInstance_origin_calls (db db2 : GDb) (now : Int)
    (g vid : String) (co : ApiCacheOption) (getData listData : JVal)
    (env : ApiCache) (calls : List OriginCall)
    (h : describeInstance db now g vid co getData listData = .ok (env, db2, calls)) :
    (jsIsFiniteNumber vid = true → calls = [] ∨ calls = [.getInstance g vid])
    ∧ (jsIsFiniteNumber vid = false → calls = [] ∨ calls = [.listVMs g])
    ∧ calls.length ≤ 1 := by
  unfold describeInstance at h
  split at h
  · rename_i hb
    split at h
    · exact absurd h (by simp)
    · rename_i env0 db0 called heq
      rw [Except.ok.injEq, Prod.mk.injEq, Prod.mk.injEq] at h
      obtain ⟨he, hdb, hcalls⟩ := h
      have hshape : calls = [] ∨ calls = [.getInstance g vid] := by
        cases called
        · rw [if_neg (by decide)] at hcalls
          exact Or.inl hcalls.symm
        · rw [if_pos rfl] at hcalls
          exact Or.inr hcalls.symm
      refine ⟨fun _ => hshape, fun hf => ?_, ?_⟩
      · rw [hb] at hf
        exact absurd hf (by decide)
      · rcases hshape with hs | hs <;> rw [hs] <;> simp
  · rename_i hb
    rw [Bool.not_eq_true] at hb
    unfold listInstances at h
    split at h
    · exact absurd h (by simp)
    · rename_i env0 db0 calls0 heq
      split at h
      · exact absurd h (by simp)
      · rename_i found heq2
        rw [Except.ok.injEq, Prod.mk.injEq, Prod.mk.injEq] at h
        obtain ⟨he, hdb, hcalls⟩ := h
        split at heq
        · exact absurd heq (by simp)
        · rename_i env1 db1 called heq3
          rw [Except.ok.injEq, Prod.mk.injEq, Prod.mk.injEq] at heq
          obtain ⟨he1, hdb1, hcalls1⟩ := heq
          have hshape : calls = [] ∨ calls = [.listVMs g] := by
            rw [← hcalls, ← hcalls1]
            cases called
            · rw [if_neg (by decide)]
              exact Or.inl rfl
            · rw [if_pos rfl]
              exact Or.inr rfl
          refine ⟨fun hf => ?_, fun _ => hshape, ?_⟩
          · rw [hb] at hf
            exact absurd hf (by decide)
          · rcases hshape with hs | hs <;> rw [hs] <;> simp

/-- Witness for describeInstance_origin_calls: the numeric id 3 under
ReadApiOnly issues exactly the direct single-instance origin call. -/
theorem describeInstance_origin_calls_witness :
    (jsIsFiniteNumber "3" = true →
      ([OriginCall.getInstance "grp" "3"] : List OriginCall) = []
        ∨ ([OriginCall.getInstance "grp" "3"] : List OriginCall)
            = [.getInstance "grp" "3"])
    ∧ (jsIsFiniteNumber "3" = false →
      ([OriginCall.getInstance "grp" "3"] : List OriginCall) = []
        ∨ ([OriginCall.getInstance "grp" "3"] : List OriginCall) = [.listVMs "grp"])
    ∧ ([OriginCall.getInstance "grp" "3"] : List OriginCall).length ≤ 1 :=
  describeInstance_origin_calls [] [] 0 "grp" "3" .ReadApiOnly
    (.obj [("vmId", .str "x")]) (.prim .null)
    { result := .obj [("vmId", .str "x")], cacheTime := none, ttl := 600,
      hitCache := false }
    [.getInstance "grp" "3"] (by decide)

/-- Claim C10 (confirmed): apiRequestSaveCache stores the entry's ttl field
as 1000 times the ttl of its result argument, and a subsequent
apiRequestReadCache whose request omits its own ttl multiplies that stored
field by 1000 again, so the entry written with ttl t is treated as unexpired
exactly while cacheTime + t * 1000 * 1000 > now, the cache time being the
backend-assigned write time. -/
theorem apiRequestSaveCache_roundtrip_ttl (db db2 : GDb) (writeTime now t : Int)
    (a : String) (ps : List String) (d : JVal) (savedRes : ApiCacheResult)
    (hsave : apiRequestSaveCache db writeTime
        { id := none, api := some a, parameters := some ps,
          stringifiedData := d, ttl := some t, cacheTime := none }
        = .ok (savedRes, db2)) :
    ∃ item, getItemFromDb db2 azureApiRequestCacheTable
        (.prim (.str (generateCacheId a ps))) = .ok item
      ∧ jsGet item "ttl" = .prim (.num (t * 1000))
      ∧ jsGet item "cacheTime" = .prim (.num writeTime)
      ∧ ((∃ r, apiRequestReadCache db2 now { api := a, parameters := ps, ttl := none }
            = .ok (some r)) ↔ writeTime + t * 1000 * 1000 > now) := by
  unfold apiRequestSaveCache at hsave
  dsimp only at hsave
  split at hsave
  · exact absurd hsave (by simp)
  · simp only [Option.getD_some, Bool.false_eq_true, if_false] at hsave
    cases hfd : gdbFind db (JVal.prim (.str (generateCacheId a ps))) with
    | none =>
      exfalso
      rw [show saveItemToDb db writeTime azureApiRequestCacheTable
          [("id", .prim (.str (generateCacheId a ps))), ("res", d),
           ("cacheTime", .prim .undefined), ("ttl", .prim (.num (t * 1000)))]
          .Upsert false
          = Except.error (.db (.read .NotFound)) from by
        unfold saveItemToDb
        rw [if_neg (by simp [azureApiRequestCacheTable])]
        unfold getItemFromDb
        rw [show jsGet [("id", JVal.prim (.str (generateCacheId a ps))), ("res", d),
            ("cacheTime", JVal.prim .undefined), ("ttl", JVal.prim (.num (t * 1000)))] "id"
          = JVal.prim (.str (generateCacheId a ps)) from rfl]
        rw [hfd]] at hsave
      exact absurd hsave (by simp)
    | some raw =>
      have hsv : saveItemToDb db writeTime azureApiRequestCacheTable
          [("id", .prim (.str (generateCacheId a ps))), ("res", d),
           ("cacheTime", .prim .undefined), ("ttl", .prim (.num (t * 1000)))]
          .Upsert false
          = .ok (azureApiRequestCacheTable.convertRecord (cacheStored a ps d writeTime t),
                 gUpsert db (cacheStored a ps d writeTime t)) := by
        unfold saveItemToDb
        rw [if_neg (by simp [azureApiRequestCacheTable])]
        unfold getItemFromDb
        rw [show jsGet [("id", JVal.prim (.str (generateCacheId a ps))), ("res", d),
            ("cacheTime", JVal.prim .undefined), ("ttl", JVal.prim (.num (t * 1000)))] "id"
          = JVal.prim (.str (generateCacheId a ps)) from rfl]
        rw [hfd]
        dsimp only
        rw [if_neg (by simp), if_neg (by simp), if_neg (by simp)]
        rw [show jsGet [("id", JVal.prim (.str (generateCacheId a ps))), ("res", d),
            ("cacheTime", JVal.prim .undefined), ("ttl", JVal.prim (.num (t * 1000)))]
            azureApiRequestCacheTable.primaryKeyName
          = JVal.prim (.str (generateCacheId a ps)) from rfl]
        rw [computeSaveId_str_self]
        rfl
      rw [hsv] at hsave
      dsimp only at hsave
      rw [Except.ok.injEq, Prod.mk.injEq] at hsave
      obtain ⟨-, hdb2⟩ := hsave
      have hget : getItemFromDb db2 azureApiRequestCacheTable
          (JVal.prim (.str (generateCacheId a ps)))
          = .ok (azureApiRequestCacheTable.convertRecord
              (cacheStored a ps d writeTime t)) := by
        rw [← hdb2]
        unfold getItemFromDb gdbFind gUpsert
        rw [List.find?_cons_of_pos _ (by
          show (jsGet (cacheStored a ps d writeTime t) "id"
            == JVal.prim (.str (generateCacheId a ps))) = true
          rw [show jsGet (cacheStored a ps d writeTime t) "id"
            = JVal.prim (.str (generateCacheId a ps)) from rfl]
          exact beq_self_eq_true _)]
      refine ⟨azureApiRequestCacheTable.convertRecord (cacheStored a ps d writeTime t),
        hget, rfl, rfl, ?_⟩
      have hread : apiRequestReadCache db2 now { api := a, parameters := ps, ttl := none }
          = if (decide (writeTime + t * 1000 * 1000 > now)) = true then
              .ok (some
                { id := some (generateCacheId a ps), api := none, parameters := none,
                  stringifiedData := d, ttl := some (t * 1000),
                  cacheTime := some writeTime })
            else .ok none := by
        unfold apiRequestReadCache
        dsimp only
        rw [hget]
        rfl
      constructor
      · rintro ⟨r, hr⟩
        rw [hread] at hr
        by_contra hno
        rw [if_neg (by simp [hno])] at hr
        exact Option.noConfusion (Except.ok.inj hr)
      · intro hgt
        rw [hread, if_pos (by simp [hgt])]
        exact ⟨_, rfl⟩

/-- Witness for apiRequestSaveCache_roundtrip_ttl: saving over an existing
row with ttl 7 at write time 5 and reading back without a request ttl. -/
theorem apiRequestSaveCache_roundtrip_ttl_witness :
    ∃ item, getItemFromDb witnessDb2 azureApiRequestCacheTable
        (.prim (.str (generateCacheId "a" ["p"]))) = .ok item
      ∧ jsGet item "ttl" = .prim (.num ((7 : Int) * 1000))
      ∧ jsGet item "cacheTime" = .prim (.num (5 : Int))
      ∧ ((∃ r, apiRequestReadCache witnessDb2 100
            { api := "a", parameters := ["p"], ttl := none } = .ok (some r))
          ↔ (5 : Int) + 7 * 1000 * 1000 > 100) :=
  apiRequestSaveCache_roundtrip_ttl [[("id", .prim (.str "a-p"))]] witnessDb2
    5 100 7 "a" ["p"] (.prim (.str "D"))
    { id := none, api := some "a", parameters := some ["p"],
      stringifiedData := .prim (.str "D"), ttl := some 7, cacheTime := some 5 }
    (by decide)
